import Mathlib

/-!
Verification of the district settings / taxonomy editor of the
alexandria-library application.

The taxonomy core is the settings page of the React front end: three
ordered string lists (soppa_statuses, app_statuses, app_tags) mutated by
addItem, removeItem and moveItem, loaded through getDistrictSettings and
persisted through handleSave / updateDistrictSettings.  The lists live in
JavaScript arrays, so a list slot is modelled as an optional string, with
none standing for the JavaScript undefined value, and positions are
modelled as integers (JavaScript numbers as used by the page, which only
ever passes integral indices).
-/

namespace Alexandria

/-- A slot of a JavaScript array: a string value, or none for the
JavaScript undefined value. -/
abbrev Val := Option String

/-- Direction argument of the moveItem operation. -/
inductive Direction where
  | up
  | down
deriving DecidableEq, Repr

/-- Whitespace as stripped by JavaScript String.prototype.trim, restricted
to the ASCII whitespace characters (the page only ever handles keyboard
input, so the exotic Unicode space code points are irrelevant here). -/
def isJsWs (c : Char) : Bool :=
  c = ' ' || c = '\t' || c = '\n' || c = '\r' || c = '\x0b' || c = '\x0c'

/-- Embedding of JavaScript String.prototype.trim: leading and trailing
whitespace characters are removed. -/
def jsTrim (value : String) : String :=
  String.mk (((value.data.dropWhile isJsWs).reverse.dropWhile isJsWs).reverse)

/-- Embedding of addItem from the settings page: the value is trimmed; an
empty trimmed value is a silent no-op, a trimmed value already contained in
the list is a silent no-op, otherwise the trimmed value is appended at the
end of the list. -/
def addItem (l : List Val) (value : String) : List Val :=
  if jsTrim value = "" then l
  else if some (jsTrim value) ∈ l then l
  else l ++ [some (jsTrim value)]

/-- One pass of JavaScript Array.prototype.filter over the list with the
callback (_, i) => i !== index, where i is the running element position. -/
def filterNeIdx (index : Int) : List Val → Int → List Val
  | [], _ => []
  | x :: xs, i =>
      if i = index then filterNeIdx index xs (i + 1)
      else x :: filterNeIdx index xs (i + 1)

/-- Embedding of removeItem from the settings page:
prev[list].filter((_, i) => i !== index).  The filter never throws: an
index matching no position simply keeps every element. -/
def removeItem (l : List Val) (index : Int) : List Val :=
  filterNeIdx index l 0

/-- The newIndex computation of moveItem:
direction === 'up' ? index - 1 : index + 1. -/
def newIdx (index : Int) : Direction → Int
  | Direction.up => index - 1
  | Direction.down => index + 1

/-- Reading a JavaScript array at an integer position: an out-of-range read
yields undefined, an in-range read yields the slot content. -/
def jsGet (l : List Val) (i : Int) : Val :=
  if i < 0 then none
  else (l.get? i.toNat).getD none

/-- Writing a JavaScript array at an integer position: a negative position
only creates a non-index property and leaves the array contents unchanged;
a position below the length overwrites the slot; the position equal to the
length appends; a larger position creates undefined holes and then the
value. -/
def jsSet (l : List Val) (i : Int) (v : Val) : List Val :=
  if i < 0 then l
  else if i.toNat < l.length then l.set i.toNat v
  else l ++ List.replicate (i.toNat - l.length) none ++ [v]

/-- Embedding of moveItem from the settings page: newIndex is computed from
the direction; when newIndex falls outside the array the handler returns
without updating; otherwise the JavaScript destructuring assignment
[newList[index], newList[newIndex]] = [newList[newIndex], newList[index]]
is performed: the right-hand side is read first from the original array,
then slot index is written, then slot newIndex is written. -/
def moveItem (l : List Val) (index : Int) (d : Direction) : List Val :=
  if newIdx index d < 0 ∨ (l.length : Int) ≤ newIdx index d then l
  else jsSet (jsSet l index (jsGet l (newIdx index d))) (newIdx index d) (jsGet l index)

/-- Names of the three taxonomy lists of the settings state. -/
inductive ListName where
  | soppa_statuses
  | app_statuses
  | app_tags
deriving DecidableEq, Repr

/-- The settings state of the district settings page: the three taxonomy
lists together with the scalar fields that the page state and the
getDistrictSettings response carry.  Scalar fields are optional strings,
none standing for the JavaScript null or undefined. -/
structure Settings where
  allowed_domain : Option String
  soppa_statuses : List Val
  app_statuses : List Val
  app_tags : List Val
  custom_fields : List (String × String)
  primary_color : Option String
  accent_color : Option String
  logo_path : Option String
  display_name : Option String
  google_client_id : Option String
  google_client_secret : Option String
  apple_client_id : Option String
  apple_team_id : Option String
  apple_key_id : Option String
  apple_private_key : Option String
  microsoft_client_id : Option String
  microsoft_tenant_id : Option String
  microsoft_client_secret : Option String
deriving DecidableEq, Repr

/-- Reading settings[list] for one of the three taxonomy list names. -/
def Settings.getList (s : Settings) : ListName → List Val
  | ListName.soppa_statuses => s.soppa_statuses
  | ListName.app_statuses => s.app_statuses
  | ListName.app_tags => s.app_tags

/-- The update setSettings(prev => (...prev, [list]: l)): the named list is
replaced and every other field of the state is kept. -/
def Settings.setList (s : Settings) : ListName → List Val → Settings
  | ListName.soppa_statuses, l => { s with soppa_statuses := l }
  | ListName.app_statuses, l => { s with app_statuses := l }
  | ListName.app_tags, l => { s with app_tags := l }

/-- A mutation of the settings state issued by the settings page: one of
addItem, removeItem, moveItem, together with its target list and
arguments. -/
inductive Mutation where
  | add (name : ListName) (value : String)
  | remove (name : ListName) (index : Int)
  | move (name : ListName) (index : Int) (d : Direction)
deriving DecidableEq, Repr

/-- The list a mutation targets. -/
def Mutation.target : Mutation → ListName
  | Mutation.add name _ => name
  | Mutation.remove name _ => name
  | Mutation.move name _ _ => name

/-- Applying a mutation to the settings state: the handlers addItem,
removeItem and moveItem all update the single named list through the
object spread and leave the rest of the state alone. -/
def applyMut (s : Settings) : Mutation → Settings
  | Mutation.add name value => s.setList name (addItem (s.getList name) value)
  | Mutation.remove name index => s.setList name (removeItem (s.getList name) index)
  | Mutation.move name index d => s.setList name (moveItem (s.getList name) index d)

/-- The district record returned by the backend for GET
/api/districts/slug, with the fields that getDistrictSettings reads, plus
the three taxonomy lists that the persistence contract of the spec carries
and that this client never reads. -/
structure District where
  name : Option String
  primary_color : Option String
  accent_color : Option String
  logo_url : Option String
  allowed_domain : Option String
  google_client_id : Option String
  google_client_secret : Option String
  apple_client_id : Option String
  apple_team_id : Option String
  apple_key_id : Option String
  apple_private_key : Option String
  microsoft_client_id : Option String
  microsoft_tenant_id : Option String
  microsoft_client_secret : Option String
  soppa_statuses : List Val
  app_statuses : List Val
  app_tags : List Val
deriving DecidableEq, Repr

/-- Embedding of the success path of getDistrictSettings: the settings
object built from the fetched district.  The three taxonomy lists are
hardcoded to the empty array (the source carries a TODO comment saying
they are not persisted in the database); the lists stored on the district
record are never read. -/
def getDistrictSettingsOk (district : District) : Settings where
  allowed_domain := district.allowed_domain
  soppa_statuses := []
  app_statuses := []
  app_tags := []
  custom_fields := []
  primary_color := district.primary_color
  accent_color := district.accent_color
  logo_path := district.logo_url
  display_name := district.name
  google_client_id := district.google_client_id
  google_client_secret := district.google_client_secret
  apple_client_id := district.apple_client_id
  apple_team_id := district.apple_team_id
  apple_key_id := district.apple_key_id
  apple_private_key := district.apple_private_key
  microsoft_client_id := district.microsoft_client_id
  microsoft_tenant_id := district.microsoft_tenant_id
  microsoft_client_secret := district.microsoft_client_secret

/-- Outcome of the getDistrictSettings fetch as observed by loadData: the
mapped settings object on success, or the catch branch value on a network
error. -/
inductive FetchOutcome where
  | ok (district : District)
  | fetchError
deriving DecidableEq, Repr

/-- Embedding of the settings update performed by loadData:
setSettings(prev => (...prev, ...settingsData)).  On the success path the
fetched object carries every settings field, so the spread overwrites each
one; on the catch path getDistrictSettings returns an object without any
settings field, so the state keeps every previous value. -/
def loadSettings (prev : Settings) : FetchOutcome → Settings
  | FetchOutcome.ok district =>
      let incoming := getDistrictSettingsOk district
      { prev with
        allowed_domain := incoming.allowed_domain
        soppa_statuses := incoming.soppa_statuses
        app_statuses := incoming.app_statuses
        app_tags := incoming.app_tags
        custom_fields := incoming.custom_fields
        primary_color := incoming.primary_color
        accent_color := incoming.accent_color
        logo_path := incoming.logo_path
        display_name := incoming.display_name
        google_client_id := incoming.google_client_id
        google_client_secret := incoming.google_client_secret
        apple_client_id := incoming.apple_client_id
        apple_team_id := incoming.apple_team_id
        apple_key_id := incoming.apple_key_id
        apple_private_key := incoming.apple_private_key
        microsoft_client_id := incoming.microsoft_client_id
        microsoft_tenant_id := incoming.microsoft_tenant_id
        microsoft_client_secret := incoming.microsoft_client_secret }
  | FetchOutcome.fetchError => prev

/-- Kind of a banner message of the settings page. -/
inductive MsgType where
  | success
  | error
deriving DecidableEq, Repr

/-- A banner message of the settings page. -/
structure Msg where
  type : MsgType
  text : String
deriving DecidableEq, Repr

/-- The component state of the settings page that handleSave touches. -/
structure EditorState where
  settings : Settings
  message : Option Msg
  saving : Bool
  justSaved : Bool
deriving DecidableEq, Repr

/-- The JSON result of updateDistrictSettings as inspected by handleSave:
a success flag and an optional error text. -/
structure SaveResult where
  success : Bool
  error : Option String
deriving DecidableEq, Repr

/-- Outcome of the updateDistrictSettings call: a parsed JSON result, or a
thrown network error caught by the catch branch. -/
inductive SaveOutcome where
  | ok (r : SaveResult)
  | netError
deriving DecidableEq, Repr

/-- The JavaScript expression a || b for an optional string a: the default
is used when a is null, undefined or the empty string. -/
def jsOrDefault (a : Option String) (b : String) : String :=
  match a with
  | some s => if s = "" then b else s
  | none => b

/-- Embedding of handleSave of the settings page: saving is set, the
message cleared, updateDistrictSettings awaited; on result.success a
success message is set (and justSaved), on a falsy result.success an error
message with result.error (or the fallback text) is set, on a thrown
network error the catch branch sets the network error message; finally
saving is cleared.  The settings field of the state is never written. -/
def handleSave (st : EditorState) : SaveOutcome → EditorState
  | SaveOutcome.ok r =>
      if r.success then
        { st with
          justSaved := true
          message := some { type := MsgType.success, text := "Settings saved successfully!" }
          saving := false }
      else
        { st with
          message := some { type := MsgType.error, text := jsOrDefault r.error "Failed to save settings" }
          saving := false }
  | SaveOutcome.netError =>
      { st with
        message := some { type := MsgType.error, text := "Network error. Please try again." }
        saving := false }

/-- The fixed masking sentinel for secret settings fields: eight asterisk
characters. -/
def maskSentinel : String := "********"

/-- The stored values of the three secret SSO fields of the district
record. -/
structure StoredSecrets where
  google_client_secret : String
  apple_private_key : String
  microsoft_client_secret : String
deriving DecidableEq, Repr

/-- Modelled from the spec: the Flask backend that serves GET /settings and
PUT /settings is not part of the source tree (the client passes the secret
fields through verbatim), so the serialization rule of section 4.2 of the
spec is modelled here: a secret field with a non-empty stored value is
replaced by the masking sentinel, an empty stored value is returned as
is. -/
def maskSecretField (stored : String) : String :=
  if stored = "" then stored else maskSentinel

/-- Modelled from the spec: serializing the stored secrets for the editor
on GET /settings applies the masking rule to each secret field. -/
def serializeSecrets (st : StoredSecrets) : StoredSecrets where
  google_client_secret := maskSecretField st.google_client_secret
  apple_private_key := maskSecretField st.apple_private_key
  microsoft_client_secret := maskSecretField st.microsoft_client_secret

/-- Modelled from the spec: the update rule of PUT /settings for one secret
field: an incoming value equal to the masking sentinel keeps the stored
value, any other incoming value (the empty string included) replaces
it. -/
def updateSecretField (stored incoming : String) : String :=
  if incoming = maskSentinel then stored else incoming

/-- Modelled from the spec: accepting a PUT /settings update applies the
update rule to each secret field. -/
def applySecretsUpdate (st incoming : StoredSecrets) : StoredSecrets where
  google_client_secret := updateSecretField st.google_client_secret incoming.google_client_secret
  apple_private_key := updateSecretField st.apple_private_key incoming.apple_private_key
  microsoft_client_secret := updateSecretField st.microsoft_client_secret incoming.microsoft_client_secret

/-- The initial settings state of the settings page (the useState literal):
empty strings for the scalar fields present in the literal, empty lists,
and no branding fields, which are undefined before the first load. -/
def initialSettings : Settings where
  allowed_domain := some ""
  soppa_statuses := []
  app_statuses := []
  app_tags := []
  custom_fields := []
  primary_color := none
  accent_color := none
  logo_path := none
  display_name := none
  google_client_id := some ""
  google_client_secret := some ""
  apple_client_id := some ""
  apple_team_id := some ""
  apple_key_id := some ""
  apple_private_key := some ""
  microsoft_client_id := some ""
  microsoft_tenant_id := some ""
  microsoft_client_secret := some ""

example : addItem [some "Math"] "  Science  " = [some "Math", some "Science"] := by decide
example : addItem [some "Math"] "Math" = [some "Math"] := by decide
example : addItem [some "Math"] "   " = [some "Math"] := by decide
example : removeItem [some "A", some "B", some "C"] 1 = [some "A", some "C"] := by decide
example : removeItem [some "A"] 5 = [some "A"] := by decide
example : removeItem [some "A"] (-1) = [some "A"] := by decide
example : moveItem [some "A", some "B"] 0 Direction.up = [some "A", some "B"] := by decide
example : moveItem [some "A", some "B"] 0 Direction.down = [some "B", some "A"] := by decide
example : moveItem [some "A", some "B"] 1 Direction.up = [some "B", some "A"] := by decide
example : moveItem [some "A", some "B"] 2 Direction.up = [some "A", none, some "B"] := by decide
example : moveItem [some "A", some "B"] (-1) Direction.down = [none, some "B"] := by decide

/-! Helper lemmas about the filter pass of removeItem. -/

theorem filterNeIdx_sublist (index : Int) :
    ∀ (l : List Val) (i : Int), List.Sublist (filterNeIdx index l i) l
  | [], _ => List.Sublist.slnil
  | x :: xs, i => by
      unfold filterNeIdx
      split
      · exact (filterNeIdx_sublist index xs (i + 1)).cons x
      · exact (filterNeIdx_sublist index xs (i + 1)).cons₂ x

theorem filterNeIdx_of_lt (index : Int) :
    ∀ (l : List Val) (i : Int), index < i → filterNeIdx index l i = l
  | [], _, _ => rfl
  | x :: xs, i, h => by
      unfold filterNeIdx
      rw [if_neg (by omega), filterNeIdx_of_lt index xs (i + 1) (by omega)]

theorem filterNeIdx_add :
    ∀ (l : List Val) (k : Nat) (i : Int),
      filterNeIdx (i + k) l i = l.take k ++ l.drop (k + 1)
  | [], k, i => by simp [filterNeIdx]
  | x :: xs, 0, i => by
      unfold filterNeIdx
      rw [if_pos (by omega), filterNeIdx_of_lt _ xs (i + 1) (by omega)]
      simp
  | x :: xs, k + 1, i => by
      unfold filterNeIdx
      rw [if_neg (by omega)]
      have hc : i + ((k + 1 : Nat) : Int) = (i + 1) + (k : Int) := by push_cast; ring
      rw [hc, filterNeIdx_add xs k (i + 1)]
      simp

theorem removeItem_eq_take_drop (l : List Val) (index : Int) (h : 0 ≤ index) :
    removeItem l index = l.take index.toNat ++ l.drop (index.toNat + 1) := by
  have h2 := filterNeIdx_add l index.toNat 0
  rw [show (0 : Int) + (index.toNat : Int) = index by omega] at h2
  rw [removeItem]
  exact h2

theorem removeItem_of_neg (l : List Val) (index : Int) (h : index < 0) :
    removeItem l index = l :=
  filterNeIdx_of_lt index l 0 h

theorem removeItem_of_ge (l : List Val) (index : Int)
    (h : (l.length : Int) ≤ index) : removeItem l index = l := by
  rw [removeItem_eq_take_drop l index (by omega)]
  have h1 : l.length ≤ index.toNat := by omega
  rw [List.take_of_length_le h1, List.drop_eq_nil_of_le (by omega)]
  simp

/-! Helper lemmas about addItem. -/

theorem addItem_of_mem (l : List Val) (value : String)
    (h : some (jsTrim value) ∈ l) : addItem l value = l := by
  simp [addItem, h]

/-- Claim C2 counterexample: removing at index 5 from a one element list,
and at index -1, silently returns the list unchanged.  The embedded filter
is a total function into lists: no code path of removeItem raises, so no
IndexOutOfRange failure occurs for indices outside the range. -/
theorem removeItem_out_of_range_silent :
    removeItem [some "A"] 5 = [some "A"] ∧
      removeItem [some "A"] (-1) = [some "A"] := by
  constructor <;> rfl

/-- Claim C2 (amended): for indices outside the interval from 0 to the
length the remove operation silently returns the list unchanged (it never
raises); for indices inside the interval it removes the element at that
index. -/
theorem removeItem_total_spec (l : List Val) (index : Int) :
    (index < 0 ∨ (l.length : Int) ≤ index → removeItem l index = l) ∧
      (0 ≤ index → index < (l.length : Int) →
        removeItem l index = l.take index.toNat ++ l.drop (index.toNat + 1)) := by
  constructor
  · rintro (h | h)
    · exact removeItem_of_neg l index h
    · exact removeItem_of_ge l index h
  · intro h _
    exact removeItem_eq_take_drop l index h

/-- Witness for removeItem_total_spec at a concrete list and index. -/
theorem removeItem_total_spec_witness :
    (removeItem [some "A", some "B", some "C"] 3 = [some "A", some "B", some "C"]) ∧
      (removeItem [some "A", some "B", some "C"] 1 = [some "A", some "C"]) := by
  have h1 := (removeItem_total_spec [some "A", some "B", some "C"] 3).1
    (Or.inr (by decide))
  have h2 := (removeItem_total_spec [some "A", some "B", some "C"] 1).2
    (by decide) (by decide)
  exact ⟨h1, h2⟩

/-- Claim C8: removing an in-range index yields the original elements with
the element at that position dropped, in their original relative order,
and the length decreases by exactly one. -/
theorem removeItem_in_range (l : List Val) (index : Int)
    (h0 : 0 ≤ index) (h1 : index < (l.length : Int)) :
    removeItem l index = l.take index.toNat ++ l.drop (index.toNat + 1) ∧
      (removeItem l index).length = l.length - 1 := by
  have he := removeItem_eq_take_drop l index h0
  refine ⟨he, ?_⟩
  rw [he]
  simp only [List.length_append, List.length_take, List.length_drop]
  omega

/-- Witness for removeItem_in_range at a concrete list and index. -/
theorem removeItem_in_range_witness :
    removeItem [some "A", some "B", some "C"] 1 = [some "A", some "C"] ∧
      (removeItem [some "A", some "B", some "C"] 1).length = 2 := by
  have h := removeItem_in_range [some "A", some "B", some "C"] 1
    (by decide) (by decide)
  exact ⟨h.1, h.2⟩

/-- Claim C4: appending a value whose trimmed form is already in the list
is a no-op, and appending the same value twice leaves the list identical
to appending it once, so the length does not change on the second
append. -/
theorem addItem_idempotent (l : List Val) (value : String) :
    (some (jsTrim value) ∈ l → addItem l value = l) ∧
      addItem (addItem l value) value = addItem l value ∧
      (addItem (addItem l value) value).length = (addItem l value).length := by
  refine ⟨addItem_of_mem l value, ?_, ?_⟩
  · by_cases he : jsTrim value = ""
    · simp [addItem, he]
    · by_cases hm : some (jsTrim value) ∈ l
      · rw [addItem_of_mem l value hm, addItem_of_mem l value hm]
      · have h1 : addItem l value = l ++ [some (jsTrim value)] := by
          simp [addItem, he, hm]
        rw [h1]
        exact addItem_of_mem _ value (by simp)
  · by_cases he : jsTrim value = ""
    · simp [addItem, he]
    · by_cases hm : some (jsTrim value) ∈ l
      · rw [addItem_of_mem l value hm, addItem_of_mem l value hm]
      · have h1 : addItem l value = l ++ [some (jsTrim value)] := by
          simp [addItem, he, hm]
        rw [h1, addItem_of_mem _ value (by simp)]

/-- Witness for addItem_idempotent at a concrete list and value. -/
theorem addItem_idempotent_witness :
    addItem [some "Math"] "Math" = [some "Math"] ∧
      addItem (addItem [some "Math"] "Math") "Math" = addItem [some "Math"] "Math" := by
  have h := addItem_idempotent [some "Math"] "Math"
  exact ⟨h.1 (by decide), h.2.1⟩

/-- Claim C5 counterexample: appending the value Math to the list that
already contains Math trims to a non-empty value, yet the value is not
appended at the end: the list is returned unchanged, not with a second
copy of Math. -/
theorem addItem_present_not_appended :
    jsTrim "Math" ≠ "" ∧
      addItem [some "Math"] "Math" = [some "Math"] ∧
      addItem [some "Math"] "Math" ≠ [some "Math", some "Math"] := by
  refine ⟨by decide, by decide, by decide⟩

/-- Claim C5 (amended): append first trims the value; if the trimmed value
is empty the list is returned unchanged; if the trimmed value is already
present the list is returned unchanged; otherwise the trimmed value (not
the raw value) is appended at the end, with all existing elements kept in
their original order. -/
theorem addItem_spec (l : List Val) (value : String) :
    (jsTrim value = "" → addItem l value = l) ∧
      (jsTrim value ≠ "" → some (jsTrim value) ∈ l → addItem l value = l) ∧
      (jsTrim value ≠ "" → some (jsTrim value) ∉ l →
        addItem l value = l ++ [some (jsTrim value)]) := by
  refine ⟨fun he => by simp [addItem, he], fun _ hm => addItem_of_mem l value hm,
    fun he hm => by simp [addItem, he, hm]⟩

/-- Witness for addItem_spec at concrete lists and values. -/
theorem addItem_spec_witness :
    addItem [some "Math"] "   " = [some "Math"] ∧
      addItem [some "Math"] " Math " = [some "Math"] ∧
      addItem [some "Math"] "  Science  " = [some "Math", some "Science"] := by
  have h1 := (addItem_spec [some "Math"] "   ").1 (by decide)
  have h2 := (addItem_spec [some "Math"] " Math ").2.1 (by decide) (by decide)
  have h3 := (addItem_spec [some "Math"] "  Science  ").2.2 (by decide) (by decide)
  exact ⟨h1, h2, h3⟩

/-- Claim C1: the secret masking round trip, modelled from the spec since
the Flask backend is not part of the source tree.  Serializing for the
editor replaces every non-empty stored secret by the eight asterisk
sentinel; an update whose incoming field equals the sentinel keeps the
stored value; any other incoming value, the empty string included,
replaces the stored value; and accepting back an unedited serialized
settings object restores the stored secrets exactly. -/
theorem secret_masking_roundtrip (st incoming : StoredSecrets) :
    (st.google_client_secret ≠ "" →
      (serializeSecrets st).google_client_secret = maskSentinel) ∧
    (st.apple_private_key ≠ "" →
      (serializeSecrets st).apple_private_key = maskSentinel) ∧
    (st.microsoft_client_secret ≠ "" →
      (serializeSecrets st).microsoft_client_secret = maskSentinel) ∧
    (incoming.google_client_secret = maskSentinel →
      (applySecretsUpdate st incoming).google_client_secret = st.google_client_secret) ∧
    (incoming.apple_private_key = maskSentinel →
      (applySecretsUpdate st incoming).apple_private_key = st.apple_private_key) ∧
    (incoming.microsoft_client_secret = maskSentinel →
      (applySecretsUpdate st incoming).microsoft_client_secret = st.microsoft_client_secret) ∧
    (incoming.google_client_secret ≠ maskSentinel →
      (applySecretsUpdate st incoming).google_client_secret = incoming.google_client_secret) ∧
    (incoming.apple_private_key ≠ maskSentinel →
      (applySecretsUpdate st incoming).apple_private_key = incoming.apple_private_key) ∧
    (incoming.microsoft_client_secret ≠ maskSentinel →
      (applySecretsUpdate st incoming).microsoft_client_secret = incoming.microsoft_client_secret) ∧
    applySecretsUpdate st (serializeSecrets st) = st := by
  obtain ⟨g, a, m⟩ := st
  refine ⟨?_, ?_, ?_, ?_, ?_, ?_, ?_, ?_, ?_, ?_⟩ <;>
    simp only [serializeSecrets, applySecretsUpdate, maskSecretField, updateSecretField]
  · intro h; rw [if_neg h]
  · intro h; rw [if_neg h]
  · intro h; rw [if_neg h]
  · intro h; rw [if_pos h]
  · intro h; rw [if_pos h]
  · intro h; rw [if_pos h]
  · intro h; rw [if_neg h]
  · intro h; rw [if_neg h]
  · intro h; rw [if_neg h]
  · simp only [StoredSecrets.mk.injEq]
    refine ⟨?_, ?_, ?_⟩ <;> (split <;> simp_all [maskSentinel])

/-- Witness for secret_masking_roundtrip at concrete stored and incoming
secrets. -/
theorem secret_masking_roundtrip_witness :
    (serializeSecrets ⟨"s3cret", "pk", ""⟩).google_client_secret = maskSentinel ∧
      (applySecretsUpdate ⟨"s3cret", "pk", ""⟩ ⟨"********", "newpk", ""⟩).google_client_secret
        = "s3cret" ∧
      (applySecretsUpdate ⟨"s3cret", "pk", ""⟩ ⟨"********", "newpk", ""⟩).apple_private_key
        = "newpk" ∧
      applySecretsUpdate ⟨"s3cret", "pk", ""⟩ (serializeSecrets ⟨"s3cret", "pk", ""⟩)
        = ⟨"s3cret", "pk", ""⟩ := by
  have h := secret_masking_roundtrip ⟨"s3cret", "pk", ""⟩ ⟨"********", "newpk", ""⟩
  refine ⟨h.1 (by decide), ?_, ?_, h.2.2.2.2.2.2.2.2.2⟩
  · have := h.2.2.2.1 (by decide)
    simpa using this
  · have := h.2.2.2.2.2.2.2.1 (by decide)
    simpa using this

/-- Claim C9: when the save operation fails, because the backend result
has a falsy success flag or because the request throws a network error,
the settings field of the component state is left exactly as it was, and
an error banner message is set. -/
theorem handleSave_failure (st : EditorState) (outcome : SaveOutcome)
    (h : (∃ r, outcome = SaveOutcome.ok r ∧ r.success = false) ∨
      outcome = SaveOutcome.netError) :
    (handleSave st outcome).settings = st.settings ∧
      ∃ t, (handleSave st outcome).message = some { type := MsgType.error, text := t } := by
  rcases h with ⟨r, rfl, hr⟩ | rfl
  · simp [handleSave, hr]
  · simp [handleSave]

/-- Witness for handleSave_failure at a concrete state and failing
outcome. -/
theorem handleSave_failure_witness :
    (handleSave
        { settings := getDistrictSettingsOk
            { name := none, primary_color := none, accent_color := none,
              logo_url := none, allowed_domain := none,
              google_client_id := none, google_client_secret := none,
              apple_client_id := none, apple_team_id := none,
              apple_key_id := none, apple_private_key := none,
              microsoft_client_id := none, microsoft_tenant_id := none,
              microsoft_client_secret := none,
              soppa_statuses := [], app_statuses := [], app_tags := [] },
          message := none, saving := true, justSaved := false }
        SaveOutcome.netError).settings =
      getDistrictSettingsOk
        { name := none, primary_color := none, accent_color := none,
          logo_url := none, allowed_domain := none,
          google_client_id := none, google_client_secret := none,
          apple_client_id := none, apple_team_id := none,
          apple_key_id := none, apple_private_key := none,
          microsoft_client_id := none, microsoft_tenant_id := none,
          microsoft_client_secret := none,
          soppa_statuses := [], app_statuses := [], app_tags := [] } ∧
      ∃ t, (handleSave
        { settings := getDistrictSettingsOk
            { name := none, primary_color := none, accent_color := none,
              logo_url := none, allowed_domain := none,
              google_client_id := none, google_client_secret := none,
              apple_client_id := none, apple_team_id := none,
              apple_key_id := none, apple_private_key := none,
              microsoft_client_id := none, microsoft_tenant_id := none,
              microsoft_client_secret := none,
              soppa_statuses := [], app_statuses := [], app_tags := [] },
          message := none, saving := true, justSaved := false }
        SaveOutcome.netError).message = some { type := MsgType.error, text := t } :=
  handleSave_failure _ SaveOutcome.netError (Or.inr rfl)

/-! Helper lemmas about jsGet, jsSet and moveItem. -/

theorem jsGet_int_toNat (l : List Val) (i : Int) (h : 0 ≤ i) :
    jsGet l i = (l.get? i.toNat).getD none := by
  rw [jsGet, if_neg (by omega)]

theorem jsGet_int_ge (l : List Val) (i : Int) (h : (l.length : Int) ≤ i) :
    jsGet l i = none := by
  rw [jsGet, if_neg (by omega), List.get?_eq_none.mpr (by omega)]
  rfl

theorem jsGet_int_neg (l : List Val) (i : Int) (h : i < 0) : jsGet l i = none := by
  rw [jsGet, if_pos h]

theorem jsSet_int_set (l : List Val) (i : Int) (v : Val) (h0 : 0 ≤ i)
    (h1 : i < (l.length : Int)) : jsSet l i v = l.set i.toNat v := by
  rw [jsSet, if_neg (by omega), if_pos (by omega)]

theorem jsSet_int_len (l : List Val) (v : Val) :
    jsSet l (l.length : Int) v = l ++ [v] := by
  rw [jsSet, if_neg (by omega), if_neg (by omega)]
  simp

theorem jsSet_int_neg (l : List Val) (i : Int) (v : Val) (h : i < 0) :
    jsSet l i v = l := by
  rw [jsSet, if_pos h]

theorem getD_get?_of_lt (l : List Val) (k : Nat) (h : k < l.length) :
    (l.get? k).getD none = l.get ⟨k, h⟩ := by
  rw [List.get?_eq_get h]
  rfl

theorem moveItem_out (l : List Val) (index : Int) (d : Direction)
    (h : newIdx index d < 0 ∨ (l.length : Int) ≤ newIdx index d) :
    moveItem l index d = l := by
  rw [moveItem, if_pos h]

theorem moveItem_swap (l : List Val) (index : Int) (d : Direction)
    (hn0 : 0 ≤ newIdx index d) (hn1 : newIdx index d < (l.length : Int))
    (hi0 : 0 ≤ index) (hi1 : index < (l.length : Int)) :
    moveItem l index d
      = (l.set index.toNat ((l.get? (newIdx index d).toNat).getD none)).set
          (newIdx index d).toNat ((l.get? index.toNat).getD none) := by
  rw [moveItem, if_neg (by omega), jsGet_int_toNat l _ hn0, jsGet_int_toNat l _ hi0,
    jsSet_int_set l index _ hi0 hi1,
    jsSet_int_set _ _ _ hn0 (by rw [List.length_set]; omega)]

theorem moveItem_past_end (l : List Val) (h : 0 < l.length) :
    moveItem l (l.length : Int) Direction.up
      = (l ++ [(l.get? (l.length - 1)).getD none]).set (l.length - 1) none := by
  rw [moveItem]
  simp only [newIdx]
  rw [if_neg (by omega), jsGet_int_ge l (l.length : Int) (le_refl _),
    jsGet_int_toNat l ((l.length : Int) - 1) (by omega), jsSet_int_len,
    jsSet_int_set _ ((l.length : Int) - 1) _ (by omega)
      (by rw [List.length_append]; simp; omega)]
  have hc : ((l.length : Int) - 1).toNat = l.length - 1 := by omega
  rw [hc]

theorem moveItem_before_start (l : List Val) (h : 0 < l.length) :
    moveItem l (-1) Direction.down = l.set 0 none := by
  rw [moveItem]
  simp only [newIdx]
  rw [if_neg (by omega), jsGet_int_neg l (-1) (by omega), jsSet_int_neg l (-1) _ (by omega),
    jsSet_int_set l _ _ (by omega) (by omega)]
  rfl

/-! Permutation lemmas for the in-range swap of moveItem. -/

theorem cons_set_perm {α : Type _} :
    ∀ (l : List α) (m : Nat) (a : α) (h : m < l.length),
      List.Perm (l.get ⟨m, h⟩ :: l.set m a) (a :: l)
  | b :: t, 0, a, _ => List.Perm.swap a b t
  | b :: t, m + 1, a, h =>
      (List.Perm.swap b ((b :: t).get ⟨m + 1, h⟩) (t.set m a)).trans
        (((cons_set_perm t m a (Nat.lt_of_succ_lt_succ h)).cons b).trans
          (List.Perm.swap a b t))

theorem set_set_get_perm {α : Type _} :
    ∀ (l : List α) (i j : Nat) (hi : i < l.length) (hj : j < l.length), i ≠ j →
      List.Perm ((l.set i (l.get ⟨j, hj⟩)).set j (l.get ⟨i, hi⟩)) l
  | _ :: _, 0, 0, _, _, hne => absurd rfl hne
  | a :: t, 0, j + 1, _, hj, _ =>
      cons_set_perm t j a (Nat.lt_of_succ_lt_succ hj)
  | a :: t, i + 1, 0, hi, _, _ =>
      cons_set_perm t i a (Nat.lt_of_succ_lt_succ hi)
  | a :: t, i + 1, j + 1, hi, hj, hne =>
      (set_set_get_perm t i j (Nat.lt_of_succ_lt_succ hi) (Nat.lt_of_succ_lt_succ hj)
        (fun hc => hne (by omega))).cons a

/-! Nodup preservation lemmas for the three mutation primitives. -/

theorem nodup_addItem (l : List Val) (value : String) (h : l.Nodup) :
    (addItem l value).Nodup := by
  unfold addItem
  split_ifs with h1 h2
  · exact h
  · exact h
  · exact (List.perm_append_singleton _ l).symm.nodup (List.nodup_cons.mpr ⟨h2, h⟩)

theorem nodup_removeItem (l : List Val) (index : Int) (h : l.Nodup) :
    (removeItem l index).Nodup :=
  List.Nodup.sublist (filterNeIdx_sublist index l 0) h

theorem nodup_moveItem (l : List Val) (index : Int) (d : Direction)
    (hs : ∀ x ∈ l, x ≠ none) (h : l.Nodup) : (moveItem l index d).Nodup := by
  by_cases hg : newIdx index d < 0 ∨ (l.length : Int) ≤ newIdx index d
  · rw [moveItem_out l index d hg]
    exact h
  · push_neg at hg
    obtain ⟨hn0, hn1⟩ := hg
    by_cases hi0 : 0 ≤ index
    · by_cases hi1 : index < (l.length : Int)
      · rw [moveItem_swap l index d hn0 hn1 hi0 hi1,
          getD_get?_of_lt l (newIdx index d).toNat (by omega),
          getD_get?_of_lt l index.toNat (by omega)]
        have hne : index.toNat ≠ (newIdx index d).toNat := by
          cases d <;> simp only [newIdx] at hn0 hn1 ⊢ <;> omega
        exact (set_set_get_perm l index.toNat (newIdx index d).toNat
          (by omega) (by omega) hne).symm.nodup h
      · cases d with
        | down =>
            exfalso
            simp only [newIdx] at hn1
            omega
        | up =>
            simp only [newIdx] at hn0 hn1
            have hidx : index = (l.length : Int) := by omega
            subst hidx
            have hlen : 0 < l.length := by omega
            rw [moveItem_past_end l hlen,
              getD_get?_of_lt l (l.length - 1) (by omega),
              List.set_append_left _ _ (by omega)]
            have p1 := List.perm_append_singleton (l.get ⟨l.length - 1, by omega⟩)
              (l.set (l.length - 1) none)
            have p2 := cons_set_perm l (l.length - 1) none (by omega)
            have pn : List.Nodup (none :: l) :=
              List.nodup_cons.mpr ⟨fun hmem => hs none hmem rfl, h⟩
            exact (p1.trans p2).symm.nodup pn
    · cases d with
      | up =>
          exfalso
          simp only [newIdx] at hn0
          omega
      | down =>
          simp only [newIdx] at hn0 hn1
          have hidx : index = -1 := by omega
          subst hidx
          have hlen : 0 < l.length := by omega
          rw [moveItem_before_start l hlen]
          cases l with
          | nil => simp at hlen
          | cons x t =>
              refine List.nodup_cons.mpr ⟨?_, (List.nodup_cons.mp h).2⟩
              intro hmem
              exact hs none (List.mem_cons_of_mem x hmem) rfl

/-! Frame lemmas for the settings level operations. -/

theorem getList_setList_self (s : Settings) (n : ListName) (l : List Val) :
    (s.setList n l).getList n = l := by
  cases n <;> rfl

theorem getList_setList_ne (s : Settings) (n n' : ListName) (l : List Val)
    (h : n' ≠ n) : (s.setList n l).getList n' = s.getList n' := by
  cases n <;> cases n' <;> first | rfl | exact absurd rfl h

theorem setList_scalar_frame (s : Settings) (n : ListName) (l : List Val) :
    (s.setList n l).allowed_domain = s.allowed_domain ∧
    (s.setList n l).custom_fields = s.custom_fields ∧
    (s.setList n l).primary_color = s.primary_color ∧
    (s.setList n l).accent_color = s.accent_color ∧
    (s.setList n l).logo_path = s.logo_path ∧
    (s.setList n l).display_name = s.display_name ∧
    (s.setList n l).google_client_id = s.google_client_id ∧
    (s.setList n l).google_client_secret = s.google_client_secret ∧
    (s.setList n l).apple_client_id = s.apple_client_id ∧
    (s.setList n l).apple_team_id = s.apple_team_id ∧
    (s.setList n l).apple_key_id = s.apple_key_id ∧
    (s.setList n l).apple_private_key = s.apple_private_key ∧
    (s.setList n l).microsoft_client_id = s.microsoft_client_id ∧
    (s.setList n l).microsoft_tenant_id = s.microsoft_tenant_id ∧
    (s.setList n l).microsoft_client_secret = s.microsoft_client_secret := by
  cases n <;>
    exact ⟨rfl, rfl, rfl, rfl, rfl, rfl, rfl, rfl, rfl, rfl, rfl, rfl, rfl, rfl, rfl⟩

theorem applyMut_eq_setList (s : Settings) (m : Mutation) :
    ∃ l, applyMut s m = s.setList m.target l := by
  cases m <;> exact ⟨_, rfl⟩

/-! Claim theorems for moveItem, the invariant, the frame property and the
load path. -/

/-- Claim C6 counterexample: for the two element list and index 2 with
direction up, the neighbor position 1 lies inside the range from 0 to the
length, yet moveItem neither swaps the slots (the length changes from 2 to
3) nor returns the list unchanged: the JavaScript destructuring assignment
appends the old last element and writes undefined into slot 1. -/
theorem moveItem_index_len_up_garbage :
    (0 : Int) ≤ newIdx 2 Direction.up ∧
      newIdx 2 Direction.up < (([some "A", some "B"] : List Val).length : Int) ∧
      moveItem [some "A", some "B"] 2 Direction.up = [some "A", none, some "B"] ∧
      moveItem [some "A", some "B"] 2 Direction.up ≠ [some "A", some "B"] ∧
      (moveItem [some "A", some "B"] 2 Direction.up).length ≠
        ([some "A", some "B"] : List Val).length := by
  refine ⟨by decide, by decide, by decide, by decide, by decide⟩

/-- Claim C6 (amended): for every list, direction, and index inside the
interval from 0 to the length: when the target neighbor position lies
inside that interval, moveItem swaps the element at index with the
neighbor and leaves every other element in place; when the neighbor
position falls outside, the list is returned unchanged and no error is
raised (the embedding is a total function). -/
theorem moveItem_spec (l : List Val) (index : Int) (d : Direction)
    (h0 : 0 ≤ index) (h1 : index < (l.length : Int)) :
    (newIdx index d < 0 ∨ (l.length : Int) ≤ newIdx index d →
      moveItem l index d = l) ∧
    (0 ≤ newIdx index d → newIdx index d < (l.length : Int) →
      (moveItem l index d).length = l.length ∧
      (moveItem l index d).get? index.toNat = l.get? (newIdx index d).toNat ∧
      (moveItem l index d).get? (newIdx index d).toNat = l.get? index.toNat ∧
      ∀ j : Nat, j ≠ index.toNat → j ≠ (newIdx index d).toNat →
        (moveItem l index d).get? j = l.get? j) := by
  refine ⟨moveItem_out l index d, ?_⟩
  intro hn0 hn1
  have hne : index.toNat ≠ (newIdx index d).toNat := by
    cases d <;> simp only [newIdx] at hn0 hn1 ⊢ <;> omega
  rw [moveItem_swap l index d hn0 hn1 h0 h1]
  refine ⟨by simp, ?_, ?_, ?_⟩
  · rw [List.get?_set_ne _ _ (Ne.symm hne), List.get?_set_eq_of_lt _ (by omega),
      getD_get?_of_lt l (newIdx index d).toNat (by omega),
      List.get?_eq_get (show (newIdx index d).toNat < l.length by omega)]
  · rw [List.get?_set_eq_of_lt _ (by rw [List.length_set]; omega),
      getD_get?_of_lt l index.toNat (by omega),
      List.get?_eq_get (show index.toNat < l.length by omega)]
  · intro j hj1 hj2
    rw [List.get?_set_ne _ _ (Ne.symm hj2), List.get?_set_ne _ _ (Ne.symm hj1)]

/-- Witness for moveItem_spec: moving index 0 up is a no-op, moving index
0 down swaps the first two elements. -/
theorem moveItem_spec_witness :
    moveItem [some "A", some "B"] 0 Direction.up = [some "A", some "B"] ∧
      (moveItem [some "A", some "B"] 0 Direction.down).get? 0 = some (some "B") ∧
      (moveItem [some "A", some "B"] 0 Direction.down).get? 1 = some (some "A") := by
  have h1 := (moveItem_spec [some "A", some "B"] 0 Direction.up
    (by decide) (by decide)).1 (by decide)
  have h2 := (moveItem_spec [some "A", some "B"] 0 Direction.down
    (by decide) (by decide)).2 (by decide) (by decide)
  exact ⟨h1, h2.2.1.trans (by decide), h2.2.2.1.trans (by decide)⟩

/-- Claim C7: for each of the three taxonomy lists, when the list holds
only string values and contains no duplicate, applying any mutation
(append, remove, or move) leaves the list free of duplicates. -/
theorem taxonomy_nodup_invariant (s : Settings) (m : Mutation) (n : ListName)
    (hs : ∀ x ∈ s.getList n, x ≠ none) (h : (s.getList n).Nodup) :
    ((applyMut s m).getList n).Nodup := by
  cases m with
  | add name value =>
      by_cases hn : n = name
      · subst hn
        rw [applyMut, getList_setList_self]
        exact nodup_addItem _ value h
      · rw [applyMut, getList_setList_ne s name n _ hn]
        exact h
  | remove name index =>
      by_cases hn : n = name
      · subst hn
        rw [applyMut, getList_setList_self]
        exact nodup_removeItem _ index h
      · rw [applyMut, getList_setList_ne s name n _ hn]
        exact h
  | move name index d =>
      by_cases hn : n = name
      · subst hn
        rw [applyMut, getList_setList_self]
        exact nodup_moveItem _ index d hs h
      · rw [applyMut, getList_setList_ne s name n _ hn]
        exact h

/-- Witness for taxonomy_nodup_invariant at a concrete duplicate-free
state and a move mutation. -/
theorem taxonomy_nodup_invariant_witness :
    ((applyMut (initialSettings.setList ListName.app_tags [some "A", some "B"])
        (Mutation.move ListName.app_tags 0 Direction.down)).getList
      ListName.app_tags).Nodup :=
  taxonomy_nodup_invariant (initialSettings.setList ListName.app_tags [some "A", some "B"])
    (Mutation.move ListName.app_tags 0 Direction.down) ListName.app_tags
    (by decide) (by decide)

/-- Claim C10: every mutation leaves the two non-target lists and every
scalar settings field (allowed domain, custom fields, branding fields and
all SSO credential fields) unchanged. -/
theorem mutation_frame (s : Settings) (m : Mutation) :
    (applyMut s m).allowed_domain = s.allowed_domain ∧
    (applyMut s m).custom_fields = s.custom_fields ∧
    (applyMut s m).primary_color = s.primary_color ∧
    (applyMut s m).accent_color = s.accent_color ∧
    (applyMut s m).logo_path = s.logo_path ∧
    (applyMut s m).display_name = s.display_name ∧
    (applyMut s m).google_client_id = s.google_client_id ∧
    (applyMut s m).google_client_secret = s.google_client_secret ∧
    (applyMut s m).apple_client_id = s.apple_client_id ∧
    (applyMut s m).apple_team_id = s.apple_team_id ∧
    (applyMut s m).apple_key_id = s.apple_key_id ∧
    (applyMut s m).apple_private_key = s.apple_private_key ∧
    (applyMut s m).microsoft_client_id = s.microsoft_client_id ∧
    (applyMut s m).microsoft_tenant_id = s.microsoft_tenant_id ∧
    (applyMut s m).microsoft_client_secret = s.microsoft_client_secret ∧
    ∀ n : ListName, n ≠ m.target → (applyMut s m).getList n = s.getList n := by
  obtain ⟨l, hl⟩ := applyMut_eq_setList s m
  rw [hl]
  obtain ⟨a1, a2, a3, a4, a5, a6, a7, a8, a9, a10, a11, a12, a13, a14, a15⟩ :=
    setList_scalar_frame s m.target l
  exact ⟨a1, a2, a3, a4, a5, a6, a7, a8, a9, a10, a11, a12, a13, a14, a15,
    fun n hn => getList_setList_ne s m.target n l hn⟩

/-- Witness for mutation_frame: adding to app_tags leaves a scalar field
and the soppa_statuses list unchanged. -/
theorem mutation_frame_witness :
    (applyMut initialSettings (Mutation.add ListName.app_tags "X")).allowed_domain
        = initialSettings.allowed_domain ∧
      (applyMut initialSettings (Mutation.add ListName.app_tags "X")).getList
          ListName.soppa_statuses
        = initialSettings.getList ListName.soppa_statuses := by
  have h := mutation_frame initialSettings (Mutation.add ListName.app_tags "X")
  exact ⟨h.1,
    h.2.2.2.2.2.2.2.2.2.2.2.2.2.2.2 ListName.soppa_statuses (by decide)⟩

/-- Claim C3 counterexample: a district record whose persisted app_tags
sequence is A, A, B loads to the empty list, not to the deduplicated
sequence A, B the claim requires: the client mapping hardcodes the three
taxonomy lists to the empty array and never reads the persisted values. -/
theorem load_drops_persisted_lists :
    (loadSettings initialSettings
        (FetchOutcome.ok
          { name := some "Local", primary_color := some "#000000",
            accent_color := some "#ffffff", logo_url := none,
            allowed_domain := none,
            google_client_id := none, google_client_secret := none,
            apple_client_id := none, apple_team_id := none,
            apple_key_id := none, apple_private_key := none,
            microsoft_client_id := none, microsoft_tenant_id := none,
            microsoft_client_secret := none,
            soppa_statuses := [], app_statuses := [],
            app_tags := [some "A", some "A", some "B"] })).app_tags = [] ∧
      ([] : List Val) ≠ [some "A", some "B"] := by
  exact ⟨rfl, by decide⟩

/-- Claim C3 (amended): the load path performs no deduplication at all:
on a successful fetch the three in-memory lists are overwritten with the
values produced by getDistrictSettings, which ignores any persisted list
values and always yields empty lists; on a fetch error the previous state
is kept. -/
theorem loadSettings_lists_empty (prev : Settings) (d : District) :
    (loadSettings prev (FetchOutcome.ok d)).soppa_statuses = [] ∧
      (loadSettings prev (FetchOutcome.ok d)).app_statuses = [] ∧
      (loadSettings prev (FetchOutcome.ok d)).app_tags = [] ∧
      loadSettings prev FetchOutcome.fetchError = prev :=
  ⟨rfl, rfl, rfl, rfl⟩

end Alexandria
